import Mathlib

/-!
Verification of the GreenCart logistics simulation engine
(`backend/logistics/management/commands/load_data.py` and
`backend/logistics/models.py`).

The engine is embedded shallowly: Django model rows become Lean structures,
model properties become Lean functions, and `SimulationEngine.run_simulation`
becomes a pure function from an in-memory snapshot to an `Except` value.
Python `float` arithmetic on currency values is embedded as exact rational
arithmetic over `ℚ` (the literals `0.1`, `0.5`, `0.7`, `5`, `2`, `50`, `100`
are exact rationals); Python's lenient `int`/`json` parsing is embedded by
executable parsers over character lists.
-/

/-! ### String helpers (structural embeddings of the Python string operations) -/

/-- Embeds Python `str.split(sep)` for a one-character separator, on the
character list of the string: auxiliary accumulator version. -/
def splitOnCharAux (c : Char) : List Char → List Char → List (List Char)
  | [], acc => [acc.reverse]
  | x :: xs, acc =>
    if x = c then acc.reverse :: splitOnCharAux c xs []
    else splitOnCharAux c xs (x :: acc)

/-- Embeds Python `str.split(sep)` for a one-character separator.
Like Python, the empty string yields `[[]]` (one empty field). -/
def splitOnChar (c : Char) (l : List Char) : List (List Char) :=
  splitOnCharAux c l []

/-- Embeds Python `str.strip()` (whitespace trimming on both ends). -/
def trimChars (l : List Char) : List Char :=
  ((l.dropWhile Char.isWhitespace).reverse.dropWhile Char.isWhitespace).reverse

/-- Value of an ASCII decimal digit. -/
def digitVal (c : Char) : Nat := c.toNat - 48

/-- Parses a non-empty all-digit character list as a natural number. -/
def decimalDigits (l : List Char) : Option Nat :=
  if l ≠ [] ∧ l.all Char.isDigit then
    some (l.foldl (fun n c => n * 10 + digitVal c) 0)
  else none

/-- Embeds Python `int(s)` on the ASCII fragment the repository feeds it:
optional surrounding whitespace, an optional sign, then decimal digits.
Returns `none` where Python raises `ValueError`. -/
def pyInt (l : List Char) : Option Int :=
  match trimChars l with
  | '-' :: rest => (decimalDigits rest).map (fun n => -(n : Int))
  | '+' :: rest => (decimalDigits rest).map (fun n => (n : Int))
  | rest => (decimalDigits rest).map (fun n => (n : Int))

/-- Value of an all-digit character list as a natural number. -/
def digitsToNat (l : List Char) : Nat :=
  l.foldl (fun n c => n * 10 + digitVal c) 0

/-! #### JSON

`Driver.past_week_hours` goes through `json.loads`.  Two embeddings cover
it.  `jsonValid` is a permissive recognizer for the whole JSON grammar
(including the `NaN`/`Infinity` extensions Python accepts): it returns
`true` on every string `json.loads` parses, so `jsonValid s = false`
faithfully marks the `JSONDecodeError` branch.  `parsePastWeekHours`
parses the values the repository can actually store in that column — JSON
arrays of numbers, the only shape `DriverSerializer.validate_past_week_hours`
admits (a list whose entries are `int` or `float`) and the only shape
`load_initial_data`/`set_past_week_hours` write — into exact scaled
decimals. -/

/-- A number parsed from a JSON number token, with value
`mant * 10 ^ exp`: the exact decimal the token denotes (the Python
`int`/`float` it loads to, up to binary-float representation). -/
structure DecNum where
  mant : Int
  exp : Int
deriving DecidableEq, Repr

/-- The rational value of a parsed JSON number. -/
def DecNum.toRat (x : DecNum) : ℚ := (x.mant : ℚ) * (10 : ℚ) ^ x.exp

/-- `n < x` decided in exact integer arithmetic (used for `hours[-1] > 8`). -/
def DecNum.gtInt (x : DecNum) (n : Int) : Bool :=
  if 0 ≤ x.exp then decide (n < x.mant * 10 ^ x.exp.toNat)
  else decide (n * 10 ^ ((-x.exp).toNat) < x.mant)

/-- Exponent suffix of a JSON number: sign, digits, end of token. -/
def parseExpDigits (r : List Char) (mant : Int) (fracLen : Nat) : Option DecNum :=
  let sr : Int × List Char :=
    match r with
    | '+' :: rr => (1, rr)
    | '-' :: rr => (-1, rr)
    | _ => (1, r)
  let ds := sr.2.takeWhile Char.isDigit
  let rest := sr.2.dropWhile Char.isDigit
  if ds = [] ∨ rest ≠ [] then none
  else some ⟨mant, sr.1 * (digitsToNat ds : Int) - (fracLen : Int)⟩

/-- Optional `e`/`E` exponent after the integer/fraction part. -/
def parseExpPart (l : List Char) (mant : Int) (fracLen : Nat) : Option DecNum :=
  match l with
  | [] => some ⟨mant, -(fracLen : Int)⟩
  | 'e' :: r => parseExpDigits r mant fracLen
  | 'E' :: r => parseExpDigits r mant fracLen
  | _ => none

/-- An unsigned JSON number: integer part (no leading zero), optional
fraction, optional exponent. -/
def parseUnsignedDec (l : List Char) : Option DecNum :=
  let intPart := l.takeWhile Char.isDigit
  let rest1 := l.dropWhile Char.isDigit
  if intPart = [] then none
  else if 1 < intPart.length ∧ intPart.head? = some '0' then none
  else
    match rest1 with
    | '.' :: r2 =>
      let fracPart := r2.takeWhile Char.isDigit
      let rest2 := r2.dropWhile Char.isDigit
      if fracPart = [] then none
      else parseExpPart rest2 ((digitsToNat (intPart ++ fracPart) : Nat) : Int) fracPart.length
    | _ => parseExpPart rest1 ((digitsToNat intPart : Nat) : Int) 0

/-- A JSON number token: optional minus sign, then an unsigned number. -/
def parseDecNum (l : List Char) : Option DecNum :=
  match l with
  | '-' :: rest => (parseUnsignedDec rest).map (fun x => ⟨-x.mant, x.exp⟩)
  | _ => parseUnsignedDec l

/-- The recognizer states of the JSON grammar walk. -/
inductive JsonMode
  | value
  | arrayBody
  | arrayMore
  | objectBody
  | memberValue
  | objectMore
deriving DecidableEq, Repr

/-- JSON whitespace (the characters Python's `json` skips). -/
def jsonWs (c : Char) : Bool := c == ' ' || c == '\t' || c == '\n' || c == '\r'

/-- Skip JSON whitespace. -/
def jsonSkipWs (l : List Char) : List Char := l.dropWhile jsonWs

/-- Characters that may appear in a JSON number token (permissive). -/
def jsonNumChar (c : Char) : Bool :=
  c.isDigit || c == '-' || c == '+' || c == '.' || c == 'e' || c == 'E'

/-- Scan a JSON string body after the opening quote (permissive: any
escaped character is accepted). -/
def jsonString : List Char → Option (List Char)
  | [] => none
  | '\\' :: _ :: rest => jsonString rest
  | '"' :: rest => some rest
  | _ :: rest => jsonString rest

/-- One fueled step machine recognizing a JSON value (with Python's
`NaN`/`Infinity`/`-Infinity` extensions) and returning the unconsumed
input.  It is permissive — it accepts a superset of what `json.loads`
accepts — so its rejections soundly witness `JSONDecodeError`. -/
def jsonRun : Nat → JsonMode → List Char → Option (List Char)
  | 0, _, _ => none
  | f + 1, JsonMode.value, l =>
    match jsonSkipWs l with
    | '{' :: rest => jsonRun f JsonMode.objectBody rest
    | '[' :: rest => jsonRun f JsonMode.arrayBody rest
    | '"' :: rest => jsonString rest
    | 't' :: 'r' :: 'u' :: 'e' :: rest => some rest
    | 'f' :: 'a' :: 'l' :: 's' :: 'e' :: rest => some rest
    | 'n' :: 'u' :: 'l' :: 'l' :: rest => some rest
    | 'N' :: 'a' :: 'N' :: rest => some rest
    | 'I' :: 'n' :: 'f' :: 'i' :: 'n' :: 'i' :: 't' :: 'y' :: rest => some rest
    | '-' :: 'I' :: 'n' :: 'f' :: 'i' :: 'n' :: 'i' :: 't' :: 'y' :: rest => some rest
    | c :: rest =>
      if c.isDigit || c == '-' then some ((c :: rest).dropWhile jsonNumChar)
      else none
    | [] => none
  | f + 1, JsonMode.arrayBody, l =>
    match jsonSkipWs l with
    | ']' :: rest => some rest
    | l2 =>
      match jsonRun f JsonMode.value l2 with
      | some rest => jsonRun f JsonMode.arrayMore rest
      | none => none
  | f + 1, JsonMode.arrayMore, l =>
    match jsonSkipWs l with
    | ']' :: rest => some rest
    | ',' :: rest =>
      match jsonRun f JsonMode.value rest with
      | some rest2 => jsonRun f JsonMode.arrayMore rest2
      | none => none
    | _ => none
  | f + 1, JsonMode.objectBody, l =>
    match jsonSkipWs l with
    | '}' :: rest => some rest
    | '"' :: rest =>
      match jsonString rest with
      | some rest2 => jsonRun f JsonMode.memberValue rest2
      | none => none
    | _ => none
  | f + 1, JsonMode.memberValue, l =>
    match jsonSkipWs l with
    | ':' :: rest =>
      match jsonRun f JsonMode.value rest with
      | some rest2 => jsonRun f JsonMode.objectMore rest2
      | none => none
    | _ => none
  | f + 1, JsonMode.objectMore, l =>
    match jsonSkipWs l with
    | '}' :: rest => some rest
    | ',' :: rest =>
      match jsonSkipWs rest with
      | '"' :: rest2 =>
        match jsonString rest2 with
        | some rest3 => jsonRun f JsonMode.memberValue rest3
        | none => none
      | _ => none
    | _ => none

/-- Whether `json.loads` succeeds on the string: one value, possibly
surrounded by whitespace, consuming the whole input.  The fuel
`4 * (length + 1)` dominates the recognizer's step count. -/
def jsonValid (s : String) : Bool :=
  match jsonRun (4 * (s.toList.length + 1)) JsonMode.value s.toList with
  | some rest => (jsonSkipWs rest).isEmpty
  | none => false

/-- Parses the JSON arrays of numbers that `past_week_hours` can hold
(the only JSON shape `DriverSerializer.validate_past_week_hours` admits
and the loaders write): `none` on anything else. -/
def parsePastWeekHours (s : String) : Option (List DecNum) :=
  match trimChars s.toList with
  | '[' :: rest =>
    match rest.getLast? with
    | some ']' =>
      let inner := rest.dropLast
      if trimChars inner = [] then some []
      else (splitOnChar ',' inner).mapM (fun part => parseDecNum (trimChars part))
    | _ => none
  | _ => none

/-! ### Rounding

Python's `round(x, 2)` rounds half to even.  The engine only ever rounds
exact multiples of `1/10` (money) and delivery ratios, embedded here over
`ℚ` with an explicit floor via `Int.fdiv` (floor division). -/

/-- Floor of a rational as an integer, `num.fdiv den`. -/
def qfloor (q : ℚ) : ℤ := q.num.fdiv q.den

/-- Round a rational to the nearest integer, ties to even
(the rounding mode of Python's `round`). -/
def roundHalfEven (q : ℚ) : ℤ :=
  let f := qfloor q
  let r := q - (f : ℚ)
  if r < 1/2 then f
  else if 1/2 < r then f + 1
  else if f % 2 = 0 then f else f + 1

/-- Embeds Python `round(x, 2)`. -/
def round2 (q : ℚ) : ℚ := ((roundHalfEven (q * 100) : ℤ) : ℚ) / 100

/-! ### Data model (`backend/logistics/models.py`) -/

/-- `Route.traffic_level`, a `CharField` with choices Low / Medium / High. -/
inductive TrafficLevel
  | Low
  | Medium
  | High
deriving DecidableEq, Repr, Inhabited

/-- A row of the `Route` model: `route_id` (unique), `distance_km`,
`traffic_level`, `base_time_min`. -/
structure Route where
  route_id : Int
  distance_km : Int
  traffic_level : TrafficLevel
  base_time_min : Int
deriving DecidableEq, Repr, Inhabited

/-- A row of the `Driver` model: `name`, `shift_hours`, and the raw
`past_week_hours` text column (a JSON array of day-hours).  `id` is the
Django primary key (`driver.id` is stored in driver assignments). -/
structure Driver where
  id : Int
  name : String
  shift_hours : Int
  past_week_hours : String
deriving DecidableEq, Repr, Inhabited

/-- `Driver.get_past_week_hours`:
`json.loads(self.past_week_hours) if self.past_week_hours else []`,
with `JSONDecodeError` caught and mapped to `[]`.  An empty column or a
string that is not valid JSON gives `[]`; a valid JSON array of numbers —
the only value `DriverSerializer.validate_past_week_hours` admits and the
CSV loader writes — gives the parsed numbers.  Valid JSON of any other
shape cannot be stored through the repository's input paths and is outside
the modelled domain. -/
def Driver.get_past_week_hours (d : Driver) : List DecNum :=
  if d.past_week_hours = "" then []
  else if jsonValid d.past_week_hours then
    match parsePastWeekHours d.past_week_hours with
    | some l => l
    | none => []
  else []

/-- `Driver.average_weekly_hours`:
`sum(hours) / len(hours) if hours else 0` (true division, embedded in ℚ). -/
def Driver.average_weekly_hours (d : Driver) : ℚ :=
  let hours := d.get_past_week_hours
  if hours.isEmpty then 0
  else ((hours.map DecNum.toRat).sum) / (hours.length : ℚ)

/-- `Driver.is_overworked`: `hours[-1] > 8 if hours else False`. -/
def Driver.is_overworked (d : Driver) : Bool :=
  match d.get_past_week_hours.getLast? with
  | some h => h.gtInt 8
  | none => false

/-- A row of the `Order` model: `order_id` (unique), `value_rs`, the
reference to its route, and the raw `delivery_time` "HH:MM" string. -/
structure Order where
  order_id : Int
  value_rs : Int
  route_id : Int
  delivery_time : String
deriving DecidableEq, Repr, Inhabited

/-- The parsing attempt inside `Order.delivery_time_minutes`:
`hours, minutes = map(int, self.delivery_time.split(':'))` succeeds exactly
when the string splits into two fields both accepted by `int`. -/
def parseDeliveryTime (s : String) : Option Int :=
  match (splitOnChar ':' s.toList).map pyInt with
  | [some h, some m] => some (h * 60 + m)
  | _ => none

/-- `Order.delivery_time_minutes`: `hours * 60 + minutes`, with
`ValueError` / `AttributeError` caught and mapped to `0`. -/
def Order.delivery_time_minutes (o : Order) : Int :=
  (parseDeliveryTime o.delivery_time).getD 0

/-- `Order.is_late` against the order's (mandatory, resolved) route:
`self.delivery_time_minutes > self.route.base_time_min + 10`. -/
def Order.is_late (o : Order) (r : Route) : Bool :=
  decide (r.base_time_min + 10 < o.delivery_time_minutes)

/-- `Order.is_high_value`: `self.value_rs > 1000`. -/
def Order.is_high_value (o : Order) : Bool :=
  decide (1000 < o.value_rs)

/-! ### Rule evaluator (`SimulationEngine._apply_company_rules`) -/

/-- `SimulationEngine._apply_company_rules(order, route, driver)`, returning
`(order_profit, penalties, bonuses, total_fuel_cost)`.  The float literals
`0.7` and `0.1` are embedded as the exact rationals `7/10` and `1/10`. -/
def apply_company_rules (order : Order) (route : Route) (driver : Driver) :
    ℚ × ℚ × ℚ × ℚ :=
  let order_value : ℚ := (order.value_rs : ℚ)
  let penalties : ℚ := if order.is_late route then 50 else 0
  let efficiency_factor : ℚ := if driver.is_overworked then 7/10 else 1
  let bonuses : ℚ :=
    if order.is_high_value && !(order.is_late route) then order_value * (1/10) else 0
  let base_fuel_cost : ℚ := (route.distance_km : ℚ) * 5
  let fuel_surcharge : ℚ :=
    if route.traffic_level = TrafficLevel.High then (route.distance_km : ℚ) * 2 else 0
  let total_fuel_cost : ℚ := (base_fuel_cost + fuel_surcharge) * efficiency_factor
  let order_profit : ℚ := order_value + bonuses - penalties - total_fuel_cost
  (order_profit, penalties, bonuses, total_fuel_cost)

/-! ### Simulation engine (`SimulationEngine` in
`backend/logistics/management/commands/load_data.py`)

`load_data` reads all drivers, routes and orders into in-memory lists; a
`Snapshot` is the result of that read.  `run_simulation` is then a pure
function of the snapshot and the three scenario inputs. -/

/-- The snapshot loaded by `SimulationEngine.load_data`. -/
structure Snapshot where
  drivers : List Driver
  routes : List Route
  orders : List Order
deriving Repr, Inhabited

/-- The errors `run_simulation` raises (`ValueError("No drivers available")`
and `ValueError("No orders to process")`, named as in the specification). -/
inductive SimError
  | NoDriversAvailable
  | NoOrdersToProcess
deriving DecidableEq, Repr

/-- The `route_map` dict built by `load_data`
(`{route.route_id: route for route in self.routes}`) applied to a key.
As with a Python dict comprehension, a later route with the same
`route_id` overwrites an earlier one, hence the reversed search. -/
def route_map (routes : List Route) (rid : Int) : Option Route :=
  routes.reverse.find? (fun r => r.route_id == rid)

/-- One entry of `results['driver_assignments']`. -/
structure DriverAssignment where
  driver_name : String
  driver_id : Int
  assigned_orders : Nat
  estimated_hours : ℚ
  is_overworked : Bool
deriving DecidableEq, Repr, Inhabited

/-- The `results['summary']` block. -/
structure Summary where
  total_orders_processed : Nat
  drivers_used : Nat
  total_penalties : ℚ
  total_bonuses : ℚ
  total_fuel_cost : ℚ
  average_orders_per_driver : ℚ
deriving DecidableEq, Repr, Inhabited

/-- The result record `run_simulation` returns.  The three fuel-cost
breakdown buckets are the `Low`/`Medium`/`High` keys of
`results['fuel_cost_breakdown']`. -/
structure SimResults where
  total_profit : ℚ
  efficiency_score : ℚ
  on_time_deliveries : Nat
  late_deliveries : Nat
  fuel_cost_low : ℚ
  fuel_cost_medium : ℚ
  fuel_cost_high : ℚ
  driver_assignments : List DriverAssignment
  summary : Summary
deriving DecidableEq, Repr, Inhabited

/-- The running accumulator of `run_simulation`: the mutable entries of
`results` plus the `total_penalties` / `total_bonuses` / `total_fuel_cost`
local variables. -/
structure RunAcc where
  total_profit : ℚ
  total_penalties : ℚ
  total_bonuses : ℚ
  total_fuel_cost : ℚ
  fuel_low : ℚ
  fuel_medium : ℚ
  fuel_high : ℚ
  on_time : Nat
  late : Nat
deriving DecidableEq, Repr, Inhabited

/-- The accumulator at the top of `run_simulation`: every total starts at 0,
the breakdown is initialized to `{'Low': 0, 'Medium': 0, 'High': 0}`. -/
def initAcc : RunAcc := ⟨0, 0, 0, 0, 0, 0, 0, 0, 0⟩

/-- The body of the `for order in assigned_orders` loop: resolve the route
(silently skipping the order when `route_map` misses), apply the company
rules, accumulate the totals, the traffic-level bucket and the
on-time/late counters. -/
def processOrder (routes : List Route) (driver : Driver) (acc : RunAcc) (o : Order) : RunAcc :=
  match route_map routes o.route_id with
  | none => acc
  | some route =>
    let res := apply_company_rules o route driver
    let acc1 : RunAcc :=
      { acc with
        total_profit := acc.total_profit + res.1
        total_penalties := acc.total_penalties + res.2.1
        total_bonuses := acc.total_bonuses + res.2.2.1
        total_fuel_cost := acc.total_fuel_cost + res.2.2.2 }
    let acc2 : RunAcc :=
      match route.traffic_level with
      | TrafficLevel.Low => { acc1 with fuel_low := acc1.fuel_low + res.2.2.2 }
      | TrafficLevel.Medium => { acc1 with fuel_medium := acc1.fuel_medium + res.2.2.2 }
      | TrafficLevel.High => { acc1 with fuel_high := acc1.fuel_high + res.2.2.2 }
    if o.is_late route then { acc2 with late := acc2.late + 1 }
    else { acc2 with on_time := acc2.on_time + 1 }

/-- The mutable state of the `for i, driver in enumerate(selected_drivers)`
loop: the accumulator, the `driver_assignments` list, `order_index` and the
enumeration index `i`. -/
structure LoopState where
  acc : RunAcc
  assignments : List DriverAssignment
  order_index : Nat
  i : Nat

/-- One iteration of the driver loop: take the next contiguous slice of
`orders_per_driver + (1 if i < extra_orders else 0)` orders, record the
driver assignment (30 minutes per order, capped at `max_hours_per_day`),
and process each order of the slice.  `q` and `r` are the
`orders_per_driver` and `extra_orders` computed before the loop. -/
def driverStep (routes : List Route) (orders : List Order) (q r : Nat) (maxHours : ℚ)
    (st : LoopState) (d : Driver) : LoopState :=
  let cnt := q + (if st.i < r then 1 else 0)
  let assigned := (orders.drop st.order_index).take cnt
  let estimated : ℚ := min ((assigned.length : ℚ) * (1/2)) maxHours
  { acc := assigned.foldl (processOrder routes d) st.acc
    assignments := st.assignments ++
      [{ driver_name := d.name
         driver_id := d.id
         assigned_orders := assigned.length
         estimated_hours := round2 estimated
         is_overworked := d.is_overworked }]
    order_index := st.order_index + cnt
    i := st.i + 1 }

/-- The success path of `run_simulation` (source lines 64-140): partition
the orders over the selected drivers, fold the rule evaluator over every
assignment, then attach the efficiency score, the rounded totals and the
summary block. -/
def simulate (snap : Snapshot) (available_drivers : Nat) (max_hours_per_day : ℚ) :
    SimResults :=
  let selected := snap.drivers.take available_drivers
  let total := snap.orders.length
  let n := selected.length
  let q := total / n
  let r := total % n
  let final := selected.foldl (driverStep snap.routes snap.orders q r max_hours_per_day)
    ⟨initAcc, [], 0, 0⟩
  let acc := final.acc
  let total_deliveries := acc.on_time + acc.late
  { total_profit := round2 acc.total_profit
    efficiency_score :=
      if 0 < total_deliveries then
        round2 ((acc.on_time : ℚ) / ((total_deliveries : Nat) : ℚ) * 100)
      else 0
    on_time_deliveries := acc.on_time
    late_deliveries := acc.late
    fuel_cost_low := acc.fuel_low
    fuel_cost_medium := acc.fuel_medium
    fuel_cost_high := acc.fuel_high
    driver_assignments := final.assignments
    summary :=
      { total_orders_processed := total
        drivers_used := n
        total_penalties := round2 acc.total_penalties
        total_bonuses := round2 acc.total_bonuses
        total_fuel_cost := round2 acc.total_fuel_cost
        average_orders_per_driver := round2 ((total : ℚ) / (n : ℚ)) } }

/-- `SimulationEngine.run_simulation(available_drivers, route_start_time,
max_hours_per_day)` over a loaded snapshot.  `route_start_time` is accepted
and ignored, exactly as in the source.  The two `raise ValueError` sites
become the two `SimError` values. -/
def run_simulation (snap : Snapshot) (available_drivers : Nat)
    (_route_start_time : String) (max_hours_per_day : ℚ) :
    Except SimError SimResults :=
  let selected := snap.drivers.take available_drivers
  if selected.isEmpty then Except.error SimError.NoDriversAvailable
  else if snap.orders.isEmpty then Except.error SimError.NoOrdersToProcess
  else Except.ok (simulate snap available_drivers max_hours_per_day)

/-- The persistence behaviour of the `run_simulation` view
(`backend/logistics/views.py`): inside `transaction.atomic()`, a
`SimulationResult` row is created only when the engine returns; an engine
exception propagates and nothing is stored.  The stored history is
modelled as the list of result records. -/
def run_simulation_view (hist : List SimResults) (snap : Snapshot) (a : Nat)
    (rs : String) (m : ℚ) : List SimResults × Except SimError SimResults :=
  match run_simulation snap a rs m with
  | Except.ok res => (hist ++ [res], Except.ok res)
  | Except.error e => (hist, Except.error e)

/-! ### Division-checked variants (for the totality claim)

Each Python division site is replaced by a checked division that yields
`none` exactly where Python would raise `ZeroDivisionError`; everything
else is unchanged. -/

/-- Checked rational division. -/
def cdivQ (x y : ℚ) : Option ℚ := if y = 0 then none else some (x / y)

/-- Checked natural floor division (`//`). -/
def cdivNat (x y : Nat) : Option Nat := if y = 0 then none else some (x / y)

/-- Checked natural remainder (`%`). -/
def cmodNat (x y : Nat) : Option Nat := if y = 0 then none else some (x % y)

/-- `Driver.average_weekly_hours` with its division checked. -/
def average_weekly_hours_checked (d : Driver) : Option ℚ :=
  let hours := d.get_past_week_hours
  if hours.isEmpty then some 0
  else cdivQ ((hours.map DecNum.toRat).sum) (hours.length : ℚ)

/-- `run_simulation` with every division site checked: `orders_per_driver`
and `extra_orders` (lines 65-66), the efficiency score (line 123) and
`average_orders_per_driver` (line 137). -/
def run_simulation_checked (snap : Snapshot) (available_drivers : Nat)
    (_route_start_time : String) (max_hours_per_day : ℚ) :
    Option (Except SimError SimResults) :=
  let selected := snap.drivers.take available_drivers
  if selected.isEmpty then some (Except.error SimError.NoDriversAvailable)
  else if snap.orders.isEmpty then some (Except.error SimError.NoOrdersToProcess)
  else
    let total := snap.orders.length
    let n := selected.length
    match cdivNat total n, cmodNat total n with
    | some q, some r =>
      let final := selected.foldl (driverStep snap.routes snap.orders q r max_hours_per_day)
        ⟨initAcc, [], 0, 0⟩
      let acc := final.acc
      let total_deliveries := acc.on_time + acc.late
      let effOpt : Option ℚ :=
        if 0 < total_deliveries then
          (cdivQ ((acc.on_time : ℚ)) (((total_deliveries : Nat) : ℚ))).map
            (fun x => round2 (x * 100))
        else some 0
      match effOpt, cdivQ ((total : ℚ)) ((n : ℚ)) with
      | some eff, some avg =>
        some (Except.ok
          { total_profit := round2 acc.total_profit
            efficiency_score := eff
            on_time_deliveries := acc.on_time
            late_deliveries := acc.late
            fuel_cost_low := acc.fuel_low
            fuel_cost_medium := acc.fuel_medium
            fuel_cost_high := acc.fuel_high
            driver_assignments := final.assignments
            summary :=
              { total_orders_processed := total
                drivers_used := n
                total_penalties := round2 acc.total_penalties
                total_bonuses := round2 acc.total_bonuses
                total_fuel_cost := round2 acc.total_fuel_cost
                average_orders_per_driver := round2 avg } })
      | _, _ => none
    | _, _ => none

/-! ### The partition arithmetic of lines 64-79, as named functions -/

/-- `orders_for_driver` for loop index `i`:
`orders_per_driver + (1 if i < extra_orders else 0)`. -/
def sliceCount (q r i : Nat) : Nat := q + (if i < r then 1 else 0)

/-- The value of `order_index` when the loop reaches index `i`. -/
def sliceStart (q r : Nat) : Nat → Nat
  | 0 => 0
  | i + 1 => sliceStart q r i + sliceCount q r i

/-- Cutting a list into contiguous slices of the given sizes, in order:
the shape of `self.orders[order_index:order_index + orders_for_driver]`
across loop iterations. -/
def takeSlices {α : Type} : List Nat → List α → List (List α)
  | [], _ => []
  | c :: cs, l => l.take c :: takeSlices cs (l.drop c)

/-! ### Invariant lemmas about the engine -/

/-- An order is resolvable when the `route_map` lookup of line 94 succeeds. -/
def resolvable (routes : List Route) (o : Order) : Bool :=
  (route_map routes o.route_id).isSome

/-- Total number of deliveries counted so far. -/
def countsPair (acc : RunAcc) : Nat := acc.on_time + acc.late

/-- The breakdown buckets always sum to the running total fuel cost, and
that total is an exact multiple of `1/10`. -/
def FuelInv (acc : RunAcc) : Prop :=
  acc.fuel_low + acc.fuel_medium + acc.fuel_high = acc.total_fuel_cost ∧
  ∃ k : ℤ, acc.total_fuel_cost = (k : ℚ) / 10

/-! ### Unfolding the success path of `run_simulation` -/

/-- The loop state after the driver loop of one successful run. -/
def finalState (snap : Snapshot) (available_drivers : Nat) (m : ℚ) : LoopState :=
  (snap.drivers.take available_drivers).foldl
    (driverStep snap.routes snap.orders
      (snap.orders.length / (snap.drivers.take available_drivers).length)
      (snap.orders.length % (snap.drivers.take available_drivers).length) m)
    ⟨initAcc, [], 0, 0⟩

/-! ### Concrete data for the witnesses -/

/-- A driver whose most recent day is 7 hours: not overworked. -/
def driverRested : Driver := ⟨1, "Asha", 8, "[6, 7]"⟩

/-- A driver whose most recent day is 9 hours: overworked. -/
def driverTired : Driver := ⟨2, "Ravi", 8, "[9]"⟩

/-- A driver whose stored history is not valid JSON. -/
def driverBadJson : Driver := ⟨3, "Kiran", 8, "not json"⟩

/-- A 10 km High-traffic route with 120 min base time. -/
def routeHigh : Route := ⟨1, 10, TrafficLevel.High, 120⟩

/-- A 4 km Low-traffic route with 60 min base time. -/
def routeLow : Route := ⟨2, 4, TrafficLevel.Low, 60⟩

/-- Ten orders over the two routes: 7 on time, 3 late. -/
def ordersTen : List Order :=
  [⟨1, 500, 1, "01:00"⟩, ⟨2, 1200, 1, "01:30"⟩, ⟨3, 800, 2, "00:30"⟩,
   ⟨4, 2000, 1, "03:00"⟩, ⟨5, 300, 2, "02:00"⟩, ⟨6, 900, 1, "00:45"⟩,
   ⟨7, 1500, 2, "00:20"⟩, ⟨8, 700, 1, "01:10"⟩, ⟨9, 600, 2, "03:00"⟩,
   ⟨10, 400, 1, "02:00"⟩]

/-- A snapshot with two drivers, two routes and ten orders. -/
def snapTen : Snapshot := ⟨[driverRested, driverTired], [routeHigh, routeLow], ordersTen⟩

/-- A snapshot with no drivers. -/
def snapNoDrivers : Snapshot := ⟨[], [routeHigh], [⟨1, 500, 1, "01:00"⟩]⟩

/-- A snapshot with a driver but no orders. -/
def snapNoOrders : Snapshot := ⟨[driverRested], [routeHigh], []⟩

/-- A snapshot whose single order references route id 99, which is not a
key of the snapshot's route map (as happens in the program whenever the
probed key — the route's primary key — differs from the stored custom
`route_id`, e.g. after a data re-import). -/
def snapBadRoute : Snapshot := ⟨[driverRested], [routeHigh], [⟨1, 500, 99, "01:00"⟩]⟩

/-- The result record of the successful run over `snapTen`. -/
def resTen : SimResults := ((run_simulation snapTen 2 "09:00" 8).toOption).getD default

/-- The result record of the successful run over `snapBadRoute`. -/
def resBadRoute : SimResults :=
  ((run_simulation snapBadRoute 1 "09:00" 8).toOption).getD default

/-- Integer casts are fixed points of `qfloor`. -/
theorem qfloor_intCast (m : ℤ) : qfloor ((m : ℚ)) = m := by
  simp [qfloor, Rat.num_intCast, Rat.den_intCast, Int.fdiv_one]

/-- Integer casts are fixed points of half-even rounding. -/
theorem roundHalfEven_intCast (m : ℤ) : roundHalfEven ((m : ℚ)) = m := by
  simp only [roundHalfEven, qfloor_intCast, sub_self]
  norm_num

/-- Exact multiples of `1/10` are fixed points of rounding to two decimals. -/
theorem round2_tenths (k : ℤ) : round2 ((k : ℚ) / 10) = (k : ℚ) / 10 := by
  have h : ((k : ℚ) / 10) * 100 = ((10 * k : ℤ) : ℚ) := by push_cast; ring
  rw [round2, h, roundHalfEven_intCast]
  push_cast; ring

/-- The integer comparison `DecNum.gtInt` agrees with the rational value
of the parsed number: `hours[-1] > 8` is decided exactly. -/
theorem DecNum.gtInt_eq (x : DecNum) (n : Int) :
    x.gtInt n = decide ((n : ℚ) < x.toRat) := by
  unfold DecNum.gtInt DecNum.toRat
  by_cases h : 0 ≤ x.exp
  · rw [if_pos h]
    have he : x.exp = (x.exp.toNat : ℤ) := (Int.toNat_of_nonneg h).symm
    rw [he, zpow_natCast]
    rw [decide_eq_decide]
    constructor
    · intro hh; exact_mod_cast hh
    · intro hh; exact_mod_cast hh
  · rw [if_neg h]
    have hlt : x.exp < 0 := lt_of_not_ge h
    set k : Nat := (-x.exp).toNat with hk
    have he : x.exp = -(k : ℤ) := by omega
    rw [decide_eq_decide, he, zpow_neg, zpow_natCast]
    have hp : (0 : ℚ) < (10 : ℚ) ^ k := by positivity
    rw [← div_eq_mul_inv, lt_div_iff hp]
    constructor
    · intro hh; exact_mod_cast hh
    · intro hh; exact_mod_cast hh

/-- A preserved predicate is preserved by `List.foldl`. -/
theorem foldl_preserve {α β : Type} (P : α → Prop) (f : α → β → α)
    (hf : ∀ a b, P a → P (f a b)) :
    ∀ (l : List β) (a : α), P a → P (l.foldl f a) := by
  intro l
  induction l with
  | nil => intro a h; simpa using h
  | cons x xs ih => intro a h; simpa using ih _ (hf a x h)

/-- Each processed order bumps exactly one of the two delivery counters,
and a dropped (unresolvable) order bumps neither. -/
theorem countsPair_processOrder (routes : List Route) (d : Driver) (acc : RunAcc) (o : Order) :
    countsPair (processOrder routes d acc o) =
      countsPair acc + (if resolvable routes o then 1 else 0) := by
  unfold processOrder
  cases hm : route_map routes o.route_id with
  | none => simp [countsPair, resolvable, hm]
  | some route =>
    obtain ⟨rid, dist, tl, bt⟩ := route
    by_cases hl : (o.is_late ⟨rid, dist, tl, bt⟩) <;> cases tl <;>
      simp [countsPair, resolvable, hm, hl] <;> omega

/-- Folding `processOrder` over a list counts exactly its resolvable orders. -/
theorem countsPair_foldl (routes : List Route) (d : Driver) (l : List Order) :
    ∀ acc, countsPair (l.foldl (processOrder routes d) acc) =
      countsPair acc + (l.filter (resolvable routes)).length := by
  induction l with
  | nil => intro acc; simp
  | cons o os ih =>
    intro acc
    by_cases h : resolvable routes o <;>
      simp [List.foldl_cons, ih, countsPair_processOrder, List.filter_cons, h] <;> omega

/-- Every fuel cost the rule evaluator produces is a multiple of `1/10`
(distances are integers, the factors are `5`, `7` or their `7/10` scaling). -/
theorem fuel_cost_tenth (o : Order) (r : Route) (d : Driver) :
    ∃ k : ℤ, (apply_company_rules o r d).2.2.2 = (k : ℚ) / 10 := by
  unfold apply_company_rules
  by_cases ho : d.is_overworked <;>
    by_cases ht : r.traffic_level = TrafficLevel.High <;> simp [ho, ht]
  · exact ⟨49 * r.distance_km, by push_cast; ring⟩
  · exact ⟨35 * r.distance_km, by push_cast; ring⟩
  · exact ⟨70 * r.distance_km, by push_cast; ring⟩
  · exact ⟨50 * r.distance_km, by push_cast; ring⟩

/-- `processOrder` preserves the fuel invariant. -/
theorem fuelInv_processOrder (routes : List Route) (d : Driver) (acc : RunAcc) (o : Order)
    (h : FuelInv acc) : FuelInv (processOrder routes d acc o) := by
  obtain ⟨h1, k, hk⟩ := h
  unfold processOrder
  cases hm : route_map routes o.route_id with
  | none => exact ⟨h1, k, hk⟩
  | some route =>
    obtain ⟨k2, hk2⟩ := fuel_cost_tenth o route d
    obtain ⟨rid, dist, tl, bt⟩ := route
    by_cases hl : (o.is_late ⟨rid, dist, tl, bt⟩) <;> cases tl <;>
      refine ⟨?_, k + k2, ?_⟩ <;>
      simp_all <;> push_cast <;> ring_nf <;> linarith [hk2, hk, h1]

/-- `driverStep` preserves the fuel invariant of its accumulator. -/
theorem fuelInv_driverStep (routes : List Route) (orders : List Order) (q r : Nat) (m : ℚ)
    (st : LoopState) (d : Driver) (h : FuelInv st.acc) :
    FuelInv (driverStep routes orders q r m st d).acc := by
  unfold driverStep
  exact foldl_preserve FuelInv (processOrder routes d)
    (fun a b hp => fuelInv_processOrder routes d a b hp) _ _ h

/-! ### Partition lemmas -/

/-- Closed form of `sliceStart`. -/
theorem sliceStart_eq (q r i : Nat) : sliceStart q r i = q * i + min i r := by
  induction i with
  | zero => simp [sliceStart]
  | succ n ih =>
    rcases Nat.lt_or_ge n r with h | h
    · have h1 : min n r = n := Nat.min_eq_left h.le
      have h2 : min (n + 1) r = n + 1 := Nat.min_eq_left h
      simp [sliceStart, sliceCount, ih, h, h1, h2, Nat.mul_succ]
      omega
    · have h1 : min n r = r := Nat.min_eq_right h
      have h2 : min (n + 1) r = r := Nat.min_eq_right (le_trans h (Nat.le_succ n))
      simp [sliceStart, sliceCount, ih, Nat.not_lt.mpr h, h1, h2, Nat.mul_succ]
      omega

/-- `sliceStart` is monotone in the index. -/
theorem sliceStart_mono (q r : Nat) {i j : Nat} (h : i ≤ j) :
    sliceStart q r i ≤ sliceStart q r j := by
  rw [sliceStart_eq, sliceStart_eq]
  have h1 := Nat.mul_le_mul_left q h
  have h2 : min i r ≤ min j r := min_le_min h le_rfl
  omega

/-- After all `n` loop iterations, `order_index` has consumed exactly the
whole order list: `n * (total / n) + total % n = total`. -/
theorem sliceStart_n (total n : Nat) (hn : 0 < n) :
    sliceStart (total / n) (total % n) n = total := by
  rw [sliceStart_eq]
  have h1 : total % n < n := Nat.mod_lt _ hn
  have h2 : min n (total % n) = total % n := Nat.min_eq_right h1.le
  have h3 : n * (total / n) + total % n = total := Nat.div_add_mod total n
  rw [h2, Nat.mul_comm]
  omega

/-- `sliceStart` is the sum of the first `n` slice counts. -/
theorem sliceStart_eq_sum (q r n : Nat) :
    sliceStart q r n = ((List.range n).map (fun k => sliceCount q r k)).sum := by
  induction n with
  | zero => simp [sliceStart]
  | succ m ih => rw [List.range_succ]; simp [sliceStart, ih]

/-- Joining the contiguous slices returns the `take` of the total size. -/
theorem takeSlices_flatten {α : Type} (cs : List Nat) (l : List α) :
    (takeSlices cs l).flatten = l.take cs.sum := by
  induction cs generalizing l with
  | nil => simp [takeSlices]
  | cons c cs ih => simp [takeSlices, List.sum_cons, List.take_add, ih]

/-- The main loop lemma: starting at loop index `i` with `order_index` at
`sliceStart q r i`, folding `driverStep` over the remaining drivers records
exactly the slice counts `sliceCount q r i, sliceCount q r (i+1), …` and
counts exactly the resolvable orders of the remaining segment. -/
theorem driver_loop_spec (routes : List Route) (orders : List Order) (q r : Nat) (m : ℚ) :
    ∀ (ds : List Driver) (i : Nat) (acc : RunAcc) (asg : List DriverAssignment),
      sliceStart q r (i + ds.length) ≤ orders.length →
      ((ds.foldl (driverStep routes orders q r m) ⟨acc, asg, sliceStart q r i, i⟩).assignments.map
          (fun x => x.assigned_orders) =
        asg.map (fun x => x.assigned_orders) ++
          (List.range ds.length).map (fun k => sliceCount q r (i + k))) ∧
      countsPair (ds.foldl (driverStep routes orders q r m) ⟨acc, asg, sliceStart q r i, i⟩).acc =
        countsPair acc +
          (((orders.drop (sliceStart q r i)).take
              (sliceStart q r (i + ds.length) - sliceStart q r i)).filter
            (resolvable routes)).length := by
  intro ds
  induction ds with
  | nil =>
    intro i acc asg hle
    simp
  | cons d ds ih =>
    intro i acc asg hle
    simp only [List.length_cons] at hle
    have hmono : sliceStart q r (i + 1) ≤ sliceStart q r (i + (ds.length + 1)) :=
      sliceStart_mono q r (by omega)
    have hidx : sliceStart q r i + sliceCount q r i = sliceStart q r (i + 1) := rfl
    have hlen : ((orders.drop (sliceStart q r i)).take (sliceCount q r i)).length
        = sliceCount q r i := by
      rw [List.length_take, List.length_drop]
      exact Nat.min_eq_left (by omega)
    have hstep : (d :: ds).foldl (driverStep routes orders q r m) ⟨acc, asg, sliceStart q r i, i⟩ =
        ds.foldl (driverStep routes orders q r m)
          ⟨((orders.drop (sliceStart q r i)).take (sliceCount q r i)).foldl
              (processOrder routes d) acc,
            asg ++ [⟨d.name, d.id,
              ((orders.drop (sliceStart q r i)).take (sliceCount q r i)).length,
              round2 (min ((((orders.drop (sliceStart q r i)).take
                (sliceCount q r i)).length : ℚ) * (1/2)) m),
              d.is_overworked⟩],
            sliceStart q r (i + 1), i + 1⟩ := rfl
    have hle2 : sliceStart q r (i + 1 + ds.length) ≤ orders.length := by
      have he : i + 1 + ds.length = i + (ds.length + 1) := by omega
      rw [he]; exact hle
    obtain ⟨ha, hc⟩ := ih (i + 1)
      (((orders.drop (sliceStart q r i)).take (sliceCount q r i)).foldl
        (processOrder routes d) acc)
      (asg ++ [⟨d.name, d.id,
        ((orders.drop (sliceStart q r i)).take (sliceCount q r i)).length,
        round2 (min ((((orders.drop (sliceStart q r i)).take
          (sliceCount q r i)).length : ℚ) * (1/2)) m),
        d.is_overworked⟩]) hle2
    constructor
    · rw [hstep, ha]
      have hrange : (List.range (ds.length + 1)).map (fun k => sliceCount q r (i + k)) =
          sliceCount q r i :: (List.range ds.length).map (fun k => sliceCount q r (i + 1 + k)) := by
        rw [List.range_succ_eq_map]
        simp only [List.map_cons, List.map_map, Nat.add_zero]
        refine congrArg (sliceCount q r i :: ·) ?_
        refine List.map_congr_left (fun a _ => ?_)
        simp only [Function.comp]
        rw [show i + (a + 1) = i + 1 + a from by omega]
      simp only [List.length_cons, hrange, List.map_append, List.map_cons, List.map_nil, hlen]
      rw [List.append_assoc]
      rfl
    · rw [hstep, hc, countsPair_foldl]
      have harith : sliceStart q r (i + (ds.length + 1)) - sliceStart q r i =
          sliceCount q r i + (sliceStart q r (i + (ds.length + 1)) - sliceStart q r (i + 1)) := by
        omega
      have hsplit : (orders.drop (sliceStart q r i)).take
            (sliceStart q r (i + (ds.length + 1)) - sliceStart q r i) =
          ((orders.drop (sliceStart q r i)).take (sliceCount q r i)) ++
            ((orders.drop (sliceStart q r (i + 1))).take
              (sliceStart q r (i + (ds.length + 1)) - sliceStart q r (i + 1))) := by
        rw [harith, List.take_add]
        refine congrArg _ ?_
        rw [List.drop_drop, hidx]
      have he : i + 1 + ds.length = i + (ds.length + 1) := by omega
      rw [he] at hc ⊢
      simp only [List.length_cons]
      rw [hsplit, List.filter_append, List.length_append]
      omega

/-- `simulate` written through `finalState` (definitional unfolding). -/
theorem simulate_def (snap : Snapshot) (a : Nat) (m : ℚ) :
    simulate snap a m =
      { total_profit := round2 (finalState snap a m).acc.total_profit
        efficiency_score :=
          if 0 < (finalState snap a m).acc.on_time + (finalState snap a m).acc.late then
            round2 (((finalState snap a m).acc.on_time : ℚ) /
              ((((finalState snap a m).acc.on_time + (finalState snap a m).acc.late : Nat)) : ℚ) *
                100)
          else 0
        on_time_deliveries := (finalState snap a m).acc.on_time
        late_deliveries := (finalState snap a m).acc.late
        fuel_cost_low := (finalState snap a m).acc.fuel_low
        fuel_cost_medium := (finalState snap a m).acc.fuel_medium
        fuel_cost_high := (finalState snap a m).acc.fuel_high
        driver_assignments := (finalState snap a m).assignments
        summary :=
          { total_orders_processed := snap.orders.length
            drivers_used := (snap.drivers.take a).length
            total_penalties := round2 (finalState snap a m).acc.total_penalties
            total_bonuses := round2 (finalState snap a m).acc.total_bonuses
            total_fuel_cost := round2 (finalState snap a m).acc.total_fuel_cost
            average_orders_per_driver :=
              round2 ((snap.orders.length : ℚ) / ((snap.drivers.take a).length : ℚ)) } } := rfl

/-- A run returns a result exactly when both guards pass, and the result is
then the value of the success path. -/
theorem run_simulation_ok_iff (snap : Snapshot) (a : Nat) (rs : String) (m : ℚ)
    (res : SimResults) :
    run_simulation snap a rs m = Except.ok res ↔
      snap.drivers.take a ≠ [] ∧ snap.orders ≠ [] ∧ res = simulate snap a m := by
  constructor
  · intro h
    simp only [run_simulation] at h
    by_cases h1 : (snap.drivers.take a).isEmpty
    · rw [if_pos h1] at h
      exact Except.noConfusion h
    · rw [if_neg h1] at h
      by_cases h2 : snap.orders.isEmpty
      · rw [if_pos h2] at h
        exact Except.noConfusion h
      · rw [if_neg h2] at h
        refine ⟨by simpa [List.isEmpty_iff] using h1, by simpa [List.isEmpty_iff] using h2,
          (Except.ok.inj h).symm⟩
  · rintro ⟨h1, h2, rfl⟩
    simp only [run_simulation]
    rw [if_neg (by simpa [List.isEmpty_iff] using h1),
      if_neg (by simpa [List.isEmpty_iff] using h2)]

/-- Instantiating the loop lemma over a whole successful run: the recorded
assignment counts are the slice counts, and the two delivery counters
together count exactly the resolvable orders of the snapshot. -/
theorem final_assignments_counts (snap : Snapshot) (a : Nat) (m : ℚ)
    (hd : snap.drivers.take a ≠ []) :
    ((finalState snap a m).assignments.map (fun x => x.assigned_orders) =
      (List.range (snap.drivers.take a).length).map
        (fun k => sliceCount (snap.orders.length / (snap.drivers.take a).length)
          (snap.orders.length % (snap.drivers.take a).length) k)) ∧
    countsPair (finalState snap a m).acc =
      (snap.orders.filter (resolvable snap.routes)).length := by
  have hn : 0 < (snap.drivers.take a).length := List.length_pos.mpr hd
  have htot : sliceStart (snap.orders.length / (snap.drivers.take a).length)
      (snap.orders.length % (snap.drivers.take a).length)
      (0 + (snap.drivers.take a).length) ≤ snap.orders.length := by
    rw [Nat.zero_add, sliceStart_n _ _ hn]
  obtain ⟨ha, hc⟩ := driver_loop_spec snap.routes snap.orders
    (snap.orders.length / (snap.drivers.take a).length)
    (snap.orders.length % (snap.drivers.take a).length) m
    (snap.drivers.take a) 0 initAcc [] htot
  have h0 : sliceStart (snap.orders.length / (snap.drivers.take a).length)
      (snap.orders.length % (snap.drivers.take a).length) 0 = 0 := rfl
  rw [h0] at ha hc
  constructor
  · simpa [finalState] using ha
  · rw [Nat.zero_add, sliceStart_n _ _ hn] at hc
    simpa [finalState, countsPair, initAcc, List.take_length] using hc

/-! ### The claims -/

/-- C1: the Rule Evaluator returns exactly the tuple
`(order_profit, penalty, bonus, fuel_cost)` with `penalty = 50` iff the
order is late (`delivery_time_minutes > base_time_min + 10`), `bonus` a 10%
bonus iff the value exceeds 1000 and the order is not late, `fuel_cost` the
distance-based cost with High-traffic surcharge scaled by the fatigue
factor, and `order_profit = value + bonus − penalty − fuel_cost`; penalty,
bonus and fuel cost are all non-negative (distances are ≥ 1 per the model
validator). -/
theorem rule_evaluator_spec (o : Order) (r : Route) (d : Driver)
    (hd : 1 ≤ r.distance_km) :
    (apply_company_rules o r d).2.1 =
      (if r.base_time_min + 10 < o.delivery_time_minutes then (50 : ℚ) else 0) ∧
    (apply_company_rules o r d).2.2.1 =
      (if 1000 < o.value_rs ∧ ¬ (r.base_time_min + 10 < o.delivery_time_minutes) then
        (o.value_rs : ℚ) * (1/10) else 0) ∧
    (apply_company_rules o r d).2.2.2 =
      ((r.distance_km : ℚ) * 5 +
        (if r.traffic_level = TrafficLevel.High then (r.distance_km : ℚ) * 2 else 0)) *
        (if d.is_overworked then (7 : ℚ)/10 else 1) ∧
    (apply_company_rules o r d).1 =
      (o.value_rs : ℚ) + (apply_company_rules o r d).2.2.1 -
        (apply_company_rules o r d).2.1 - (apply_company_rules o r d).2.2.2 ∧
    0 ≤ (apply_company_rules o r d).2.1 ∧
    0 ≤ (apply_company_rules o r d).2.2.1 ∧
    0 ≤ (apply_company_rules o r d).2.2.2 := by
  have hd0 : (1 : ℚ) ≤ (r.distance_km : ℚ) := by exact_mod_cast hd
  have h1 : (apply_company_rules o r d).2.1 = (if o.is_late r then (50 : ℚ) else 0) := rfl
  have h2 : (apply_company_rules o r d).2.2.1 =
      (if o.is_high_value && !(o.is_late r) then (o.value_rs : ℚ) * (1/10) else 0) := rfl
  have h3 : (apply_company_rules o r d).2.2.2 =
      ((r.distance_km : ℚ) * 5 +
        (if r.traffic_level = TrafficLevel.High then (r.distance_km : ℚ) * 2 else 0)) *
        (if d.is_overworked then (7 : ℚ)/10 else 1) := rfl
  refine ⟨?_, ?_, h3, rfl, ?_, ?_, ?_⟩
  · rw [h1]; simp [Order.is_late]
  · rw [h2]; simp [Order.is_high_value, Order.is_late]
  · rw [h1]; split <;> norm_num
  · rw [h2]; split
    · rename_i hc
      have hv : (1000 : ℚ) < (o.value_rs : ℚ) := by
        simp [Order.is_high_value] at hc
        exact_mod_cast hc.1
      nlinarith
    · exact le_refl 0
  · rw [h3]
    by_cases ht : r.traffic_level = TrafficLevel.High <;>
      by_cases ho : d.is_overworked <;> simp [ht, ho] <;> nlinarith [hd0]

/-- C2: the partitioner gives driver `i` (0-based, in selection order) a
contiguous slice of the snapshot-ordered order list of size
`total / n + 1` for `i < total % n` and `total / n` otherwise; the slices
concatenate back to the order list (every order assigned exactly once),
the counts sum to the total and any two counts differ by at most 1. -/
theorem partitioner_spec (snap : Snapshot) (a : Nat) (rs : String) (m : ℚ)
    (res : SimResults) (h : run_simulation snap a rs m = Except.ok res) :
    (res.driver_assignments.map (fun x => x.assigned_orders) =
      (List.range res.summary.drivers_used).map
        (fun i => res.summary.total_orders_processed / res.summary.drivers_used +
          if i < res.summary.total_orders_processed % res.summary.drivers_used then 1 else 0)) ∧
    (takeSlices (res.driver_assignments.map (fun x => x.assigned_orders)) snap.orders).flatten =
      snap.orders ∧
    (res.driver_assignments.map (fun x => x.assigned_orders)).sum =
      res.summary.total_orders_processed ∧
    ∀ x ∈ res.driver_assignments.map (fun x => x.assigned_orders),
      ∀ y ∈ res.driver_assignments.map (fun x => x.assigned_orders), x ≤ y + 1 := by
  obtain ⟨hd, ho, hres⟩ := (run_simulation_ok_iff snap a rs m res).mp h
  subst hres
  obtain ⟨ha, -⟩ := final_assignments_counts snap a m hd
  have hn : 0 < (snap.drivers.take a).length := List.length_pos.mpr hd
  have hsum : ((List.range (snap.drivers.take a).length).map
      (fun k => sliceCount (snap.orders.length / (snap.drivers.take a).length)
        (snap.orders.length % (snap.drivers.take a).length) k)).sum =
      snap.orders.length := by
    rw [← sliceStart_eq_sum, sliceStart_n _ _ hn]
  refine ⟨?_, ?_, ?_, ?_⟩
  · simp only [simulate_def]
    rw [ha]
    simp [sliceCount]
  · simp only [simulate_def]
    rw [ha, takeSlices_flatten, hsum, List.take_length]
  · simp only [simulate_def]
    rw [ha, hsum]
  · simp only [simulate_def]
    rw [ha]
    intro x hx y hy
    simp only [List.mem_map, List.mem_range] at hx hy
    obtain ⟨i, -, rfl⟩ := hx
    obtain ⟨j, -, rfl⟩ := hy
    unfold sliceCount
    have vi : (if i < snap.orders.length % (snap.drivers.take a).length then 1 else 0) ≤ 1 := by
      split <;> omega
    have vj : 0 ≤ (if j < snap.orders.length % (snap.drivers.take a).length then 1 else 0) := by
      split <;> omega
    omega

/-- C3 (amended): in every successful run, every order whose route
resolves in the engine's route map is evaluated exactly once and counted
in exactly one of the two delivery counters, so `on_time + late` equals
the number of resolvable orders of the snapshot; the summary's
`total_orders_processed` always reports the full snapshot size.  The two
totals can differ, because line 95 silently skips an order whose lookup
misses. -/
theorem delivery_counts_resolvable (snap : Snapshot) (a : Nat) (rs : String) (m : ℚ)
    (res : SimResults) (h : run_simulation snap a rs m = Except.ok res) :
    res.on_time_deliveries + res.late_deliveries =
      (snap.orders.filter (resolvable snap.routes)).length ∧
    res.summary.total_orders_processed = snap.orders.length := by
  obtain ⟨hd, ho, hres⟩ := (run_simulation_ok_iff snap a rs m res).mp h
  subst hres
  obtain ⟨-, hc⟩ := final_assignments_counts snap a m hd
  constructor
  · simp only [simulate_def]
    have hpair : (finalState snap a m).acc.on_time + (finalState snap a m).acc.late =
        countsPair (finalState snap a m).acc := rfl
    rw [hpair, hc]
  · simp [simulate_def]

/-- Counterexample to C3 as stated: a successful run over a one-order
snapshot whose order references a route id that is not a key of the route
map.  The run succeeds, `total_orders_processed` is 1, but the order is
counted in neither delivery counter, so `on_time + late` is 0 and does not
equal the number of orders in the snapshot. -/
theorem delivery_counts_complete_cex :
    run_simulation snapBadRoute 1 "09:00" 8 = Except.ok resBadRoute ∧
    resolvable snapBadRoute.routes ⟨1, 500, 99, "01:00"⟩ = false ∧
    resBadRoute.on_time_deliveries + resBadRoute.late_deliveries = 0 ∧
    snapBadRoute.orders.length = 1 ∧
    resBadRoute.summary.total_orders_processed = 1 ∧
    ¬(resBadRoute.on_time_deliveries + resBadRoute.late_deliveries =
      snapBadRoute.orders.length) :=
  ⟨rfl, by decide, by decide, by decide, by decide, by decide⟩

/-- C4: the efficiency score of a successful run is
`round(on_time / (on_time + late) * 100, 2)` when some delivery was
counted, and `0` otherwise. -/
theorem efficiency_score_spec (snap : Snapshot) (a : Nat) (rs : String) (m : ℚ)
    (res : SimResults) (h : run_simulation snap a rs m = Except.ok res) :
    res.efficiency_score =
      if 0 < res.on_time_deliveries + res.late_deliveries then
        round2 ((res.on_time_deliveries : ℚ) /
          (((res.on_time_deliveries + res.late_deliveries : Nat)) : ℚ) * 100)
      else 0 := by
  obtain ⟨hd, ho, hres⟩ := (run_simulation_ok_iff snap a rs m res).mp h
  subst hres
  simp only [simulate_def]

/-- C5: a run fails with `NoDriversAvailable` iff the selected driver list
(the first `available_drivers` drivers of the snapshot) is empty; when at
least one driver is selected it fails with `NoOrdersToProcess` iff the
order snapshot is empty; and on any failure the stored history is
unchanged (no result record is produced or persisted). -/
theorem run_error_cases (snap : Snapshot) (a : Nat) (rs : String) (m : ℚ)
    (hist : List SimResults) :
    (run_simulation snap a rs m = Except.error SimError.NoDriversAvailable ↔
      snap.drivers.take a = []) ∧
    (snap.drivers.take a ≠ [] →
      (run_simulation snap a rs m = Except.error SimError.NoOrdersToProcess ↔
        snap.orders = [])) ∧
    (∀ e, run_simulation snap a rs m = Except.error e →
      run_simulation_view hist snap a rs m = (hist, Except.error e)) := by
  have e1 : (snap.drivers.take a).isEmpty = true ↔ snap.drivers.take a = [] := by
    simp [List.isEmpty_iff]
  have e2 : snap.orders.isEmpty = true ↔ snap.orders = [] := by
    simp [List.isEmpty_iff]
  refine ⟨?_, ?_, ?_⟩
  · simp only [run_simulation]
    by_cases h1 : (snap.drivers.take a).isEmpty
    · rw [if_pos h1]
      simp [e1.mp h1]
    · rw [if_neg h1]
      have hne : snap.drivers.take a ≠ [] := fun hh => h1 (e1.mpr hh)
      by_cases h2 : snap.orders.isEmpty
      · rw [if_pos h2]
        simp [hne]
      · rw [if_neg h2]
        simp [hne]
  · intro hne
    simp only [run_simulation]
    rw [if_neg (fun hh => hne (e1.mp hh))]
    by_cases h2 : snap.orders.isEmpty
    · rw [if_pos h2]
      simp [e2.mp h2]
    · rw [if_neg h2]
      have hne2 : snap.orders ≠ [] := fun hh => h2 (e2.mpr hh)
      simp [hne2]
  · intro e he
    unfold run_simulation_view
    rw [he]

/-- C6: in every successful run the three fuel-cost breakdown buckets sum
exactly to the summary's `total_fuel_cost` (the unrounded total is an exact
multiple of 1/10, so the final rounding does not disturb the identity). -/
theorem fuel_breakdown_consistent (snap : Snapshot) (a : Nat) (rs : String) (m : ℚ)
    (res : SimResults) (h : run_simulation snap a rs m = Except.ok res) :
    res.fuel_cost_low + res.fuel_cost_medium + res.fuel_cost_high =
      res.summary.total_fuel_cost := by
  obtain ⟨hd, ho, hres⟩ := (run_simulation_ok_iff snap a rs m res).mp h
  subst hres
  have hinv : FuelInv (finalState snap a m).acc := by
    refine foldl_preserve (fun st : LoopState => FuelInv st.acc)
      (driverStep snap.routes snap.orders
        (snap.orders.length / (snap.drivers.take a).length)
        (snap.orders.length % (snap.drivers.take a).length) m)
      (fun st d hp => fuelInv_driverStep _ _ _ _ _ st d hp) _ _ ?_
    exact ⟨by norm_num [initAcc], 0, by norm_num [initAcc]⟩
  obtain ⟨hsum, k, hk⟩ := hinv
  simp only [simulate_def]
  rw [hsum, hk, round2_tenths]

/-- C7: every division in the engine is guarded: the checked engine (whose
divisions yield `none` on a zero divisor) computes exactly the plain
engine, and the checked `average_weekly_hours` computes exactly the model
property, for all inputs — so no `ZeroDivisionError` is reachable and no
error besides the two declared ones is raised. -/
theorem engine_division_total (snap : Snapshot) (a : Nat) (rs : String) (m : ℚ)
    (d : Driver) :
    run_simulation_checked snap a rs m = some (run_simulation snap a rs m) ∧
    average_weekly_hours_checked d = some (Driver.average_weekly_hours d) := by
  constructor
  · simp only [run_simulation_checked, run_simulation]
    by_cases h1 : (snap.drivers.take a).isEmpty
    · simp only [if_pos h1]
    · simp only [if_neg h1]
      by_cases h2 : snap.orders.isEmpty
      · simp only [if_pos h2]
      · simp only [if_neg h2]
        have hne : snap.drivers.take a ≠ [] := by
          intro hh; rw [hh] at h1; exact h1 rfl
        have hn : (snap.drivers.take a).length ≠ 0 :=
          fun hz => hne (List.length_eq_zero.mp hz)
        have hq : cdivNat snap.orders.length (snap.drivers.take a).length =
            some (snap.orders.length / (snap.drivers.take a).length) := by
          unfold cdivNat; rw [if_neg hn]
        have hr2 : cmodNat snap.orders.length (snap.drivers.take a).length =
            some (snap.orders.length % (snap.drivers.take a).length) := by
          unfold cmodNat; rw [if_neg hn]
        rw [hq, hr2]
        have hnq : ((snap.drivers.take a).length : ℚ) ≠ 0 := by
          exact_mod_cast hn
        have havg : cdivQ ((snap.orders.length : ℚ)) (((snap.drivers.take a).length : ℚ)) =
            some ((snap.orders.length : ℚ) / ((snap.drivers.take a).length : ℚ)) := by
          unfold cdivQ; rw [if_neg hnq]
        by_cases htd : 0 < (finalState snap a m).acc.on_time + (finalState snap a m).acc.late
        · have htdq : ((((finalState snap a m).acc.on_time +
              (finalState snap a m).acc.late : Nat)) : ℚ) ≠ 0 := by
            exact_mod_cast Nat.pos_iff_ne_zero.mp htd
          have heff : cdivQ (((finalState snap a m).acc.on_time : ℚ))
              (((((finalState snap a m).acc.on_time +
                (finalState snap a m).acc.late : Nat)) : ℚ)) =
              some (((finalState snap a m).acc.on_time : ℚ) /
                ((((finalState snap a m).acc.on_time +
                  (finalState snap a m).acc.late : Nat)) : ℚ)) := by
            unfold cdivQ; rw [if_neg htdq]
          simp only [finalState] at htd heff
          simp only [htd, if_true, heff, Option.map_some', havg, simulate]
        · simp only [finalState] at htd
          simp only [htd, if_false, havg, simulate, eq_self_iff_true]
  · unfold average_weekly_hours_checked Driver.average_weekly_hours
    by_cases hh : d.get_past_week_hours.isEmpty
    · simp [hh]
    · have hlen : (d.get_past_week_hours.length : ℚ) ≠ 0 := by
        have : d.get_past_week_hours ≠ [] := by simpa [List.isEmpty_iff] using hh
        have := List.length_pos.mpr this
        positivity
      simp [hh, cdivQ, hlen]

/-- C8: an order whose `delivery_time` cannot be parsed as two
colon-separated integers gets `delivery_time_minutes = 0`, is classified
on time (route base times are ≥ 1), incurs no penalty, and is processed
normally rather than aborting the run. -/
theorem delivery_time_lenient (o : Order) (r : Route) (d : Driver)
    (hp : parseDeliveryTime o.delivery_time = none) (hr : 1 ≤ r.base_time_min) :
    o.delivery_time_minutes = 0 ∧ o.is_late r = false ∧
    (apply_company_rules o r d).2.1 = 0 := by
  have h0 : o.delivery_time_minutes = 0 := by
    simp [Order.delivery_time_minutes, hp]
  have hl : o.is_late r = false := by
    simp only [Order.is_late, h0, decide_eq_false_iff_not]
    omega
  have hpen : (apply_company_rules o r d).2.1 = (if o.is_late r then (50 : ℚ) else 0) := rfl
  refine ⟨h0, hl, ?_⟩
  rw [hpen, hl]
  simp

/-- C9: a driver whose stored past-week-hours text is empty or not valid
JSON is treated as having no recorded hours: the parsed list is empty, the
weekly average is 0, `is_overworked` is false, and the rule evaluator
therefore charges that driver the full (factor 1.0) fuel cost. -/
theorem driver_history_lenient (d : Driver)
    (h : d.past_week_hours = "" ∨ jsonValid d.past_week_hours = false) :
    d.get_past_week_hours = [] ∧ d.average_weekly_hours = 0 ∧
    d.is_overworked = false ∧
    ∀ (o : Order) (r : Route), (apply_company_rules o r d).2.2.2 =
      ((r.distance_km : ℚ) * 5 +
        (if r.traffic_level = TrafficLevel.High then (r.distance_km : ℚ) * 2 else 0)) * 1 := by
  have hg : d.get_past_week_hours = [] := by
    unfold Driver.get_past_week_hours
    rcases h with h | h
    · rw [if_pos h]
    · by_cases he : d.past_week_hours = ""
      · rw [if_pos he]
      · rw [if_neg he]
        simp [h]
  have hov : d.is_overworked = false := by
    simp [Driver.is_overworked, hg]
  refine ⟨hg, ?_, hov, ?_⟩
  · simp [Driver.average_weekly_hours, hg]
  · intro o r
    have hf : (apply_company_rules o r d).2.2.2 =
        ((r.distance_km : ℚ) * 5 +
          (if r.traffic_level = TrafficLevel.High then (r.distance_km : ℚ) * 2 else 0)) *
          (if d.is_overworked then (7 : ℚ)/10 else 1) := rfl
    rw [hf, hov]
    simp

/-- C10: with the order and route fixed (positive distance), an overworked
driver is charged exactly `0.7` times the fuel cost of a non-overworked
driver — strictly less — while penalty and bonus are unchanged, so the
order profit is strictly larger for the overworked driver. -/
theorem overworked_fuel_discount (o : Order) (r : Route) (d1 d2 : Driver)
    (hd : 1 ≤ r.distance_km) (h1 : d1.is_overworked = true)
    (h2 : d2.is_overworked = false) :
    (apply_company_rules o r d1).2.2.2 = (7/10 : ℚ) * (apply_company_rules o r d2).2.2.2 ∧
    (apply_company_rules o r d1).2.2.2 < (apply_company_rules o r d2).2.2.2 ∧
    (apply_company_rules o r d1).2.1 = (apply_company_rules o r d2).2.1 ∧
    (apply_company_rules o r d1).2.2.1 = (apply_company_rules o r d2).2.2.1 ∧
    (apply_company_rules o r d2).1 < (apply_company_rules o r d1).1 := by
  have hd0 : (1 : ℚ) ≤ (r.distance_km : ℚ) := by exact_mod_cast hd
  have hSpos : 0 < (r.distance_km : ℚ) * 5 +
      (if r.traffic_level = TrafficLevel.High then (r.distance_km : ℚ) * 2 else 0) := by
    by_cases ht : r.traffic_level = TrafficLevel.High <;> simp [ht] <;> nlinarith [hd0]
  have e1 : (apply_company_rules o r d1).2.2.2 =
      ((r.distance_km : ℚ) * 5 +
        (if r.traffic_level = TrafficLevel.High then (r.distance_km : ℚ) * 2 else 0)) *
        (7/10 : ℚ) := by
    have hf : (apply_company_rules o r d1).2.2.2 = _ *
        (if d1.is_overworked then (7 : ℚ)/10 else 1) := rfl
    rw [hf, h1]
    simp
  have e2 : (apply_company_rules o r d2).2.2.2 =
      ((r.distance_km : ℚ) * 5 +
        (if r.traffic_level = TrafficLevel.High then (r.distance_km : ℚ) * 2 else 0)) := by
    have hf : (apply_company_rules o r d2).2.2.2 = _ *
        (if d2.is_overworked then (7 : ℚ)/10 else 1) := rfl
    rw [hf, h2]
    simp
  have p1 : (apply_company_rules o r d1).1 =
      (o.value_rs : ℚ) +
        (if o.is_high_value && !(o.is_late r) then (o.value_rs : ℚ) * (1/10) else 0) -
        (if o.is_late r then (50 : ℚ) else 0) - (apply_company_rules o r d1).2.2.2 := rfl
  have p2 : (apply_company_rules o r d2).1 =
      (o.value_rs : ℚ) +
        (if o.is_high_value && !(o.is_late r) then (o.value_rs : ℚ) * (1/10) else 0) -
        (if o.is_late r then (50 : ℚ) else 0) - (apply_company_rules o r d2).2.2.2 := rfl
  refine ⟨by rw [e1, e2]; ring, by rw [e1, e2]; nlinarith [hSpos], rfl, rfl, ?_⟩
  rw [p1, p2, e1, e2]
  nlinarith [hSpos]

/-! ### Witnesses -/

/-- Witness for C1 at the spec's own example: order value 1200, not late,
10 km High route, rested driver gives `(1250, 0, 120, 70)`. -/
theorem rule_evaluator_spec_witness :
    apply_company_rules ⟨1, 1200, 1, "01:30"⟩ routeHigh driverRested = (1250, 0, 120, 70) ∧
    0 ≤ (apply_company_rules ⟨1, 1200, 1, "01:30"⟩ routeHigh driverRested).2.2.2 := by
  constructor
  · have h1 : (⟨1, 1200, 1, "01:30"⟩ : Order).is_late
        (⟨1, 10, TrafficLevel.High, 120⟩ : Route) = false := by decide
    have h2 : (⟨1, 1200, 1, "01:30"⟩ : Order).is_high_value = true := by decide
    have h3 : driverRested.is_overworked = false := by decide
    simp [apply_company_rules, routeHigh, h1, h2, h3, Prod.ext_iff]
    norm_num
  · exact (rule_evaluator_spec ⟨1, 1200, 1, "01:30"⟩ routeHigh driverRested
      (by decide)).2.2.2.2.2.2

/-- Witness for C2: over `snapTen` with 2 drivers, the counts are `[5, 5]`,
they sum to the 10 processed orders, and the slices rebuild the order
list. -/
theorem partitioner_spec_witness :
    run_simulation snapTen 2 "09:00" 8 = Except.ok resTen ∧
    resTen.driver_assignments.map (fun x => x.assigned_orders) = [5, 5] ∧
    (resTen.driver_assignments.map (fun x => x.assigned_orders)).sum =
      resTen.summary.total_orders_processed ∧
    (takeSlices (resTen.driver_assignments.map (fun x => x.assigned_orders))
      snapTen.orders).flatten = snapTen.orders := by
  have h : run_simulation snapTen 2 "09:00" 8 = Except.ok resTen := rfl
  obtain ⟨h1, h2, h3, h4⟩ := partitioner_spec snapTen 2 "09:00" 8 resTen h
  exact ⟨h, by decide, h3, h2⟩

/-- Witness for C3 (amended): all ten orders of `snapTen` resolve, so the
two counters sum to the ten resolvable orders. -/
theorem delivery_counts_resolvable_witness :
    run_simulation snapTen 2 "09:00" 8 = Except.ok resTen ∧
    (resTen.on_time_deliveries + resTen.late_deliveries =
      (snapTen.orders.filter (resolvable snapTen.routes)).length ∧
     resTen.summary.total_orders_processed = snapTen.orders.length) :=
  ⟨rfl, delivery_counts_resolvable snapTen 2 "09:00" 8 resTen rfl⟩

/-- Witness for C4: `snapTen` yields 7 on-time and 3 late deliveries, and
the efficiency score is exactly 70. -/
theorem efficiency_score_spec_witness :
    run_simulation snapTen 2 "09:00" 8 = Except.ok resTen ∧
    resTen.on_time_deliveries = 7 ∧ resTen.late_deliveries = 3 ∧
    resTen.efficiency_score = 70 := by
  have h : run_simulation snapTen 2 "09:00" 8 = Except.ok resTen := rfl
  have h7 : resTen.on_time_deliveries = 7 := by decide
  have h3 : resTen.late_deliveries = 3 := by decide
  have he := efficiency_score_spec snapTen 2 "09:00" 8 resTen h
  rw [h7, h3] at he
  refine ⟨h, h7, h3, ?_⟩
  rw [he, if_pos (by norm_num : 0 < 7 + 3)]
  have hv : (((7 : Nat)) : ℚ) / (((7 + 3 : Nat)) : ℚ) * 100 = ((700 : ℤ) : ℚ) / 10 := by
    push_cast
    norm_num
  rw [hv, round2_tenths]
  norm_num

/-- Witness for C5: zero drivers raise `NoDriversAvailable`, an empty
order snapshot raises `NoOrdersToProcess`, and the history stays
unchanged on error. -/
theorem run_error_cases_witness :
    run_simulation snapNoDrivers 1 "09:00" 8 = Except.error SimError.NoDriversAvailable ∧
    run_simulation snapNoOrders 1 "09:00" 8 = Except.error SimError.NoOrdersToProcess ∧
    run_simulation_view [] snapNoDrivers 1 "09:00" 8 =
      ([], Except.error SimError.NoDriversAvailable) := by
  have h1 := (run_error_cases snapNoDrivers 1 "09:00" 8 []).1.mpr (by decide)
  have h2 := ((run_error_cases snapNoOrders 1 "09:00" 8 []).2.1 (by decide)).mpr rfl
  have h3 := (run_error_cases snapNoDrivers 1 "09:00" 8 []).2.2 _ h1
  exact ⟨h1, h2, h3⟩

/-- Witness for C6: over `snapTen` the three buckets sum to the summary's
total fuel cost. -/
theorem fuel_breakdown_consistent_witness :
    run_simulation snapTen 2 "09:00" 8 = Except.ok resTen ∧
    resTen.fuel_cost_low + resTen.fuel_cost_medium + resTen.fuel_cost_high =
      resTen.summary.total_fuel_cost :=
  ⟨rfl, fuel_breakdown_consistent snapTen 2 "09:00" 8 resTen rfl⟩

/-- Witness for C7 at a concrete snapshot and driver. -/
theorem engine_division_total_witness :
    run_simulation_checked snapTen 2 "09:00" 8 = some (run_simulation snapTen 2 "09:00" 8) ∧
    average_weekly_hours_checked driverRested = some driverRested.average_weekly_hours :=
  engine_division_total snapTen 2 "09:00" 8 driverRested

/-- Witness for C8: the unparsable string `"oops"` gives 0 minutes, an
on-time classification and no penalty. -/
theorem delivery_time_lenient_witness :
    parseDeliveryTime "oops" = none ∧
    ((⟨11, 500, 1, "oops"⟩ : Order).delivery_time_minutes = 0 ∧
     (⟨11, 500, 1, "oops"⟩ : Order).is_late routeHigh = false ∧
     (apply_company_rules ⟨11, 500, 1, "oops"⟩ routeHigh driverRested).2.1 = 0) :=
  ⟨by decide, delivery_time_lenient ⟨11, 500, 1, "oops"⟩ routeHigh driverRested
    (by decide) (by decide)⟩

/-- Witness for C9: the invalid history `"not json"` yields no recorded
hours, a 0 average, a rested classification and full fuel cost. -/
theorem driver_history_lenient_witness :
    jsonValid driverBadJson.past_week_hours = false ∧
    (driverBadJson.get_past_week_hours = [] ∧
     driverBadJson.average_weekly_hours = 0 ∧
     driverBadJson.is_overworked = false ∧
     ∀ (o : Order) (r : Route), (apply_company_rules o r driverBadJson).2.2.2 =
       ((r.distance_km : ℚ) * 5 +
         (if r.traffic_level = TrafficLevel.High then (r.distance_km : ℚ) * 2 else 0)) * 1) :=
  ⟨by decide, driver_history_lenient driverBadJson (Or.inr (by decide))⟩

/-- Witness for C10 on the High route: the overworked driver pays 0.7 of
the rested driver's fuel cost and keeps a strictly larger profit. -/
theorem overworked_fuel_discount_witness :
    driverTired.is_overworked = true ∧ driverRested.is_overworked = false ∧
    ((apply_company_rules ⟨1, 500, 1, "01:00"⟩ routeHigh driverTired).2.2.2 =
      (7/10 : ℚ) * (apply_company_rules ⟨1, 500, 1, "01:00"⟩ routeHigh driverRested).2.2.2 ∧
     (apply_company_rules ⟨1, 500, 1, "01:00"⟩ routeHigh driverTired).2.2.2 <
      (apply_company_rules ⟨1, 500, 1, "01:00"⟩ routeHigh driverRested).2.2.2 ∧
     (apply_company_rules ⟨1, 500, 1, "01:00"⟩ routeHigh driverTired).2.1 =
      (apply_company_rules ⟨1, 500, 1, "01:00"⟩ routeHigh driverRested).2.1 ∧
     (apply_company_rules ⟨1, 500, 1, "01:00"⟩ routeHigh driverTired).2.2.1 =
      (apply_company_rules ⟨1, 500, 1, "01:00"⟩ routeHigh driverRested).2.2.1 ∧
     (apply_company_rules ⟨1, 500, 1, "01:00"⟩ routeHigh driverRested).1 <
      (apply_company_rules ⟨1, 500, 1, "01:00"⟩ routeHigh driverTired).1) :=
  ⟨by decide, by decide,
    overworked_fuel_discount ⟨1, 500, 1, "01:00"⟩ routeHigh driverTired driverRested
      (by decide) (by decide) (by decide)⟩
